import Mathlib

/-!
Verification development for the Roo-Code intent-driven orchestration
middleware.  Definitions are shallow embeddings of the TypeScript sources:
`src/core/astDiff.ts` (mutation classifier), `src/core/intentStatusManager.ts`
(intent state machine), `src/intent/intentLoader.ts` (intent store),
`src/hooks/{preToolUse,scopeValidator,approvalGuard,postToolUse,hookEngine}.ts`
(hook pipeline), and `src/utils/{traceLogger,gitUtils}.ts` (trace ledger).
-/

/- ────────────────────────────────────────────────────────────────────────
   Part A.  Semantic mutation classifier (src/core/astDiff.ts)
   ──────────────────────────────────────────────────────────────────────── -/

/-- The closed set of mutation tags (`MutationClass` in astDiff.ts). -/
inductive MutationClass where
  | ADD_FUNCTION
  | MODIFY_FUNCTION
  | DELETE_FUNCTION
  | ADD_CLASS
  | MODIFY_CLASS
  | DELETE_CLASS
  | ADD_IMPORT
  | MODIFY_IMPORT
  | DELETE_IMPORT
  | ADD_EXPORT
  | DELETE_EXPORT
  | REFACTOR_BLOCK
  | ADD_TYPE
  | MODIFY_TYPE
  deriving DecidableEq, Repr

/-- All fourteen mutation classes, for closure statements. -/
def allMutationClasses : List MutationClass :=
  [MutationClass.ADD_FUNCTION, MutationClass.MODIFY_FUNCTION, MutationClass.DELETE_FUNCTION,
   MutationClass.ADD_CLASS, MutationClass.MODIFY_CLASS, MutationClass.DELETE_CLASS,
   MutationClass.ADD_IMPORT, MutationClass.MODIFY_IMPORT, MutationClass.DELETE_IMPORT,
   MutationClass.ADD_EXPORT, MutationClass.DELETE_EXPORT, MutationClass.REFACTOR_BLOCK,
   MutationClass.ADD_TYPE, MutationClass.MODIFY_TYPE]

/-- Character classes appearing in the astDiff.ts regular expressions. -/
inductive CharClass where
  | ws
  | word
  | dot
  | lit (c : Char)
  | quote
  deriving DecidableEq, Repr

/-- JS semantics of each character class (`\s`, `\w`, `.`, literal, `['"]`). -/
def ccMatch : CharClass → Char → Bool
  | CharClass.ws, c => c = ' ' || c = '\t' || c = '\n' || c = '\r' || c = '\x0b' || c = '\x0c'
  | CharClass.word, c => c.isAlphanum || c = '_'
  | CharClass.dot, c => c ≠ '\n' && c ≠ '\r'
  | CharClass.lit a, c => c = a
  | CharClass.quote, c => c = '\'' || c = '"'

/-- Minimal regex abstract syntax covering the eight astDiff patterns. -/
inductive RE where
  | eps
  | cls (c : CharClass)
  | seq (a b : RE)
  | alt (a b : RE)
  | star (a : RE)
  deriving Repr

/-- Bounded iteration of a starred sub-matcher (the star bodies in the
astDiff patterns all consume at least one character per iteration, so a
fuel of `|input| + 1` is exhaustive). -/
def starLoop (m : List Char → (List Char → Bool) → Bool) :
    Nat → List Char → (List Char → Bool) → Bool
  | 0, s, k => k s
  | n + 1, s, k => k s || m s (fun s2 => starLoop m n s2 k)

/-- Backtracking matcher in continuation-passing style; `reMatch r s k` is
true iff some prefix of `s` matches `r` and `k` accepts the rest.  This is
the semantics of an anchored (`^`) JS regex under `.test`. -/
def reMatch : RE → List Char → (List Char → Bool) → Bool
  | RE.eps, s, k => k s
  | RE.cls _, [], _ => false
  | RE.cls c, ch :: s, k => ccMatch c ch && k s
  | RE.seq a b, s, k => reMatch a s (fun s2 => reMatch b s2 k)
  | RE.alt a b, s, k => reMatch a s k || reMatch b s k
  | RE.star a, s, k => starLoop (reMatch a) (s.length + 1) s k

/-- `RegExp.test` for a `^`-anchored pattern: match starting at position 0,
ending anywhere. -/
def reTest (r : RE) (s : String) : Bool :=
  reMatch r s.data (fun _ => true)

def rList (rs : List RE) : RE := rs.foldr RE.seq RE.eps

def rStr (s : String) : RE := rList (s.data.map (fun c => RE.cls (CharClass.lit c)))

def rOpt (r : RE) : RE := RE.alt r RE.eps

def rPlus (r : RE) : RE := RE.seq r (RE.star r)

def wsStar : RE := RE.star (RE.cls CharClass.ws)

def wsPlus : RE := rPlus (RE.cls CharClass.ws)

def wordPlus : RE := rPlus (RE.cls CharClass.word)

def dotStar : RE := RE.star (RE.cls CharClass.dot)

def dotPlus : RE := rPlus (RE.cls CharClass.dot)

/-- astDiff PATTERNS.function: `^\s*(export\s+)?(async\s+)?function\s+\w+`. -/
def patFunction : RE :=
  rList [wsStar, rOpt (RE.seq (rStr "export") wsPlus), rOpt (RE.seq (rStr "async") wsPlus),
         rStr "function", wsPlus, wordPlus]

/-- astDiff PATTERNS.arrow:
`^\s*(export\s+)?(const|let)\s+\w+\s*=\s*(async\s+)?\(.*\)\s*=>`. -/
def patArrow : RE :=
  rList [wsStar, rOpt (RE.seq (rStr "export") wsPlus), RE.alt (rStr "const") (rStr "let"),
         wsPlus, wordPlus, wsStar, rStr "=", wsStar, rOpt (RE.seq (rStr "async") wsPlus),
         rStr "(", dotStar, rStr ")", wsStar, rStr "=>"]

/-- astDiff PATTERNS.method: `^\s*(async\s+)?\w+\s*\(.*\)\s*:\s*\w+`. -/
def patMethod : RE :=
  rList [wsStar, rOpt (RE.seq (rStr "async") wsPlus), wordPlus, wsStar,
         rStr "(", dotStar, rStr ")", wsStar, rStr ":", wsStar, wordPlus]

/-- astDiff PATTERNS.class: `^\s*(export\s+)?class\s+\w+`. -/
def patClass : RE :=
  rList [wsStar, rOpt (RE.seq (rStr "export") wsPlus), rStr "class", wsPlus, wordPlus]

/-- astDiff PATTERNS.importStmt: `^\s*import\s+.+from\s+['"].+['"]`. -/
def patImport : RE :=
  rList [wsStar, rStr "import", wsPlus, dotPlus, rStr "from", wsPlus,
         RE.cls CharClass.quote, dotPlus, RE.cls CharClass.quote]

/-- astDiff PATTERNS.exportStmt:
`^\s*export\s+(default\s+|type\s+|const\s+|function\s+|class\s+)`. -/
def patExport : RE :=
  rList [wsStar, rStr "export", wsPlus,
    RE.alt (RE.seq (rStr "default") wsPlus)
      (RE.alt (RE.seq (rStr "type") wsPlus)
        (RE.alt (RE.seq (rStr "const") wsPlus)
          (RE.alt (RE.seq (rStr "function") wsPlus) (RE.seq (rStr "class") wsPlus))))]

/-- astDiff PATTERNS.typeAlias: `^\s*(export\s+)?type\s+\w+\s*=`. -/
def patTypeAlias : RE :=
  rList [wsStar, rOpt (RE.seq (rStr "export") wsPlus), rStr "type", wsPlus, wordPlus,
         wsStar, rStr "="]

/-- astDiff PATTERNS.interface: `^\s*(export\s+)?interface\s+\w+`. -/
def patInterface : RE :=
  rList [wsStar, rOpt (RE.seq (rStr "export") wsPlus), rStr "interface", wsPlus, wordPlus]

/-- A source line, as a list of characters (all line-level computation is
done on `List Char`, mirroring JS string indexing). -/
def reTestLine (r : RE) (l : List Char) : Bool :=
  reMatch r l (fun _ => true)

/-- True iff a line matches at least one pattern of the astDiff table. -/
def matchesAnyPattern (l : List Char) : Bool :=
  reTestLine patFunction l || reTestLine patArrow l || reTestLine patMethod l ||
  reTestLine patClass l || reTestLine patImport l || reTestLine patExport l ||
  reTestLine patTypeAlias l || reTestLine patInterface l

/-- Decidable membership of a line in a list of lines. -/
def lineMem (x : List Char) (l : List (List Char)) : Bool :=
  decide (x ∈ l)

/-- JS `str.split('\n')`. -/
def splitNl : List Char → List (List Char)
  | [] => [[]]
  | c :: cs =>
    let r := splitNl cs
    if c = '\n' then [] :: r
    else
      match r with
      | [] => [[c]]
      | h :: t => (c :: h) :: t

/-- JS `str.trim()`: strip leading and trailing whitespace. -/
def trimChars (l : List Char) : List Char :=
  (((l.dropWhile (ccMatch CharClass.ws)).reverse.dropWhile (ccMatch CharClass.ws)).reverse)

/-- Insertion-order deduplication (JS `new Set(array)` iterated by spread). -/
def dedupAux : List (List Char) → List (List Char) → List (List Char)
  | [], _ => []
  | x :: xs, seen => if lineMem x seen then dedupAux xs seen else x :: dedupAux xs (x :: seen)

/-- `before.split('\n').map(l => l.trim()).filter(Boolean)` collected into a
Set: trimmed, non-empty, first-occurrence-deduplicated lines. -/
def tidyLines (s : String) : List (List Char) :=
  dedupAux (((splitNl s.data).map trimChars).filter (fun l => !(l.isEmpty))) []

/-- astDiff `diffLines`: lines present in `after` and absent in `before`. -/
def diffAdded (before after : String) : List (List Char) :=
  (tidyLines after).filter (fun l => !(lineMem l (tidyLines before)))

/-- astDiff `diffLines`: lines present in `before` and absent in `after`. -/
def diffRemoved (before after : String) : List (List Char) :=
  (tidyLines before).filter (fun l => !(lineMem l (tidyLines after)))

/-- JS `Set.add`: append the tag if not already present. -/
def insertTag (t : MutationClass) (l : List MutationClass) : List MutationClass :=
  if l.contains t then l else l ++ [t]

/-- The per-line pattern dispatch of astDiff `classifyLines` (the five `if`
blocks, in source order). -/
def classifyLine (line : List Char) (isAdded : Bool) (acc : List MutationClass) :
    List MutationClass :=
  let a1 :=
    if reTestLine patFunction line || reTestLine patArrow line || reTestLine patMethod line then
      insertTag (if isAdded then MutationClass.ADD_FUNCTION else MutationClass.DELETE_FUNCTION) acc
    else acc
  let a2 :=
    if reTestLine patClass line then
      insertTag (if isAdded then MutationClass.ADD_CLASS else MutationClass.DELETE_CLASS) a1
    else a1
  let a3 :=
    if reTestLine patImport line then
      insertTag (if isAdded then MutationClass.ADD_IMPORT else MutationClass.DELETE_IMPORT) a2
    else a2
  let a4 :=
    if reTestLine patExport line then
      insertTag (if isAdded then MutationClass.ADD_EXPORT else MutationClass.DELETE_EXPORT) a3
    else a3
  let a5 :=
    if reTestLine patTypeAlias line || reTestLine patInterface line then
      insertTag (if isAdded then MutationClass.ADD_TYPE else MutationClass.MODIFY_TYPE) a4
    else a4
  a5

/-- astDiff `classifyLines`: fold the per-line dispatch over a line set. -/
def classifyLines (lines : List (List Char)) (isAdded : Bool) : List MutationClass :=
  lines.foldl (fun acc l => classifyLine l isAdded acc) []

/-- The intermediate set of astDiff `classifyMutation` before the collapse
step: `new Set([...addedClasses, ...removedClasses])`. -/
def scanClasses (before after : String) : List MutationClass :=
  (classifyLines (diffAdded before after) true ++
   classifyLines (diffRemoved before after) false).foldl (fun acc m => insertTag m acc) []

/-- One `ADD + DELETE → MODIFY` collapse block of astDiff `classifyMutation`. -/
def collapsePair (addForm delForm modForm : MutationClass) (l : List MutationClass) :
    List MutationClass :=
  if l.contains addForm && l.contains delForm then
    insertTag modForm (l.filter (fun m => m ≠ addForm && m ≠ delForm))
  else l

/-- astDiff `classifyMutation`: diff, per-polarity scan, the three collapse
blocks, and the `REFACTOR_BLOCK` fallback. -/
def classifyMutation (before after : String) : List MutationClass :=
  let m0 := scanClasses before after
  let m1 := collapsePair MutationClass.ADD_FUNCTION MutationClass.DELETE_FUNCTION
              MutationClass.MODIFY_FUNCTION m0
  let m2 := collapsePair MutationClass.ADD_CLASS MutationClass.DELETE_CLASS
              MutationClass.MODIFY_CLASS m1
  let m3 := collapsePair MutationClass.ADD_IMPORT MutationClass.DELETE_IMPORT
              MutationClass.MODIFY_IMPORT m2
  if m3.isEmpty && (!(diffAdded before after).isEmpty || !(diffRemoved before after).isEmpty)
  then [MutationClass.REFACTOR_BLOCK]
  else m3

/-- The value of `m3` above (scan followed by the three collapse blocks),
named so theorems can speak about the pre-fallback set. -/
def collapsedClasses (before after : String) : List MutationClass :=
  collapsePair MutationClass.ADD_IMPORT MutationClass.DELETE_IMPORT MutationClass.MODIFY_IMPORT
    (collapsePair MutationClass.ADD_CLASS MutationClass.DELETE_CLASS MutationClass.MODIFY_CLASS
      (collapsePair MutationClass.ADD_FUNCTION MutationClass.DELETE_FUNCTION
        MutationClass.MODIFY_FUNCTION (scanClasses before after)))

/- ────────────────────────────────────────────────────────────────────────
   Part B.  Intent store and state machine
   (src/intent/intentLoader.ts, src/core/intentStatusManager.ts)
   ──────────────────────────────────────────────────────────────────────── -/

/-- The four legal intent statuses (`IntentStatus` / `VALID_STATUSES`). -/
inductive IntentStatus where
  | PENDING
  | IN_PROGRESS
  | COMPLETED
  | LOCKED
  deriving DecidableEq, Repr

def statusToString : IntentStatus → String
  | IntentStatus.PENDING => "PENDING"
  | IntentStatus.IN_PROGRESS => "IN_PROGRESS"
  | IntentStatus.COMPLETED => "COMPLETED"
  | IntentStatus.LOCKED => "LOCKED"

/-- `VALID_STATUSES.includes(s)` together with the decoding of the raw
string; `none` means the raw value is not a member of the legal set. -/
def parseStatus (s : String) : Option IntentStatus :=
  if s = "PENDING" then some IntentStatus.PENDING
  else if s = "IN_PROGRESS" then some IntentStatus.IN_PROGRESS
  else if s = "COMPLETED" then some IntentStatus.COMPLETED
  else if s = "LOCKED" then some IntentStatus.LOCKED
  else none

/-- An intent entry as it sits in the parsed YAML document: the `status`
field is a raw optional string (absent = `none`). -/
structure RawIntent where
  id : String
  description : String
  status : Option String
  owned_scope : List String
  constraints : List (String × String)
  acceptance_criteria : List String
  spec_ref : Option String
  deriving DecidableEq, Repr

/-- A normalized intent as returned by `IntentLoader.loadIntents`. -/
structure Intent where
  id : String
  description : String
  status : IntentStatus
  owned_scope : List String
  constraints : List (String × String)
  acceptance_criteria : List String
  spec_ref : Option String
  deriving DecidableEq, Repr

/-- Status normalization of `IntentLoader.loadIntents`: a missing or
unrecognized raw status becomes `PENDING`; all other fields are spread
through unchanged (`{ ...intent, status }`). -/
def normalizeIntent (r : RawIntent) : Intent :=
  { id := r.id
    description := r.description
    status :=
      match r.status with
      | some s =>
        match parseStatus s with
        | some st => st
        | none => IntentStatus.PENDING
      | none => IntentStatus.PENDING
    owned_scope := r.owned_scope
    constraints := r.constraints
    acceptance_criteria := r.acceptance_criteria
    spec_ref := r.spec_ref }

/-- The warning text of `IntentLoader.loadIntents` for an unknown status. -/
def mkStatusWarning (id raw : String) : String :=
  "[IntentLoader] Intent \"" ++ id ++ "\" has unknown status \"" ++ raw ++
  "\". Defaulting to PENDING."

/-- Warnings emitted for one entry: the source guards with
`intent.status && !VALID_STATUSES.includes(intent.status)`, so a missing or
empty (falsy) status produces no warning. -/
def statusWarnings (r : RawIntent) : List String :=
  match r.status with
  | some s => if s ≠ "" ∧ (parseStatus s).isNone then [mkStatusWarning r.id s] else []
  | none => []

/-- `IntentLoader.loadIntents` on an already-parsed well-formed document:
the normalized intents plus the warning diagnostics. -/
def loadIntents (doc : List RawIntent) : List Intent × List String :=
  (doc.map normalizeIntent, (doc.map statusWarnings).flatten)

/-- `status === 'PENDING' || status === 'IN_PROGRESS'`. -/
def isWorkable (i : Intent) : Bool :=
  i.status == IntentStatus.PENDING || i.status == IntentStatus.IN_PROGRESS

/-- `IntentLoader.getWorkableIntents`. -/
def workableIntents (doc : List RawIntent) : List Intent :=
  (loadIntents doc).fst.filter isWorkable

/-- `` `${i.id} (${i.status})` `` as used in recovery messages. -/
def intentEntryLabel (i : Intent) : String :=
  i.id ++ (" (" ++ (statusToString i.status ++ ")"))

/-- JS `Array.join(sep)`. -/
def joinSep (sep : String) : List String → String
  | [] => ""
  | [x] => x
  | x :: y :: xs => x ++ sep ++ joinSep sep (y :: xs)

/-- `s || '(none)'`. -/
def orNone (s : String) : String := if s = "" then "(none)" else s

/-- `s || 'none'`. -/
def orNoneWord (s : String) : String := if s = "" then "none" else s

def activeIntentsPath (workspaceRoot : String) : String :=
  workspaceRoot ++ "/.orchestration/active_intents.yaml"

/-- The `IntentLoader.loadIntent` not-found error message. -/
def notFoundMsg (intentId path : String) (workable : List Intent) : String :=
  "Intent \"" ++ intentId ++ ("\" not found in " ++ path ++
    (".\n  Available PENDING/IN_PROGRESS intents: " ++
      (orNone (joinSep ", " (workable.map intentEntryLabel)) ++
       "\n  Tip: choose one of the IDs above and call select_active_intent().")))

/-- `IntentLoader.loadIntent`: load all, normalize, find by id. -/
def loadIntentE (doc : List RawIntent) (path intentId : String) : Except String Intent :=
  match (loadIntents doc).fst.find? (fun i => i.id == intentId) with
  | some i => Except.ok i
  | none => Except.error (notFoundMsg intentId path (workableIntents doc))

/-- `ALLOWED_TRANSITIONS` of intentStatusManager.ts: note that both
`COMPLETED` and `LOCKED` map to the empty list (terminal states). -/
def allowedTransitions : IntentStatus → List IntentStatus
  | IntentStatus.PENDING => [IntentStatus.IN_PROGRESS]
  | IntentStatus.IN_PROGRESS => [IntentStatus.COMPLETED, IntentStatus.LOCKED]
  | IntentStatus.COMPLETED => []
  | IntentStatus.LOCKED => []

/-- The spec's legal-transition table, written from the spec text (§4.5),
which additionally admits `LOCKED → IN_PROGRESS` as an administrative
override.  Kept separate so it can be compared against the source's
`allowedTransitions`. -/
def specLegalTransitions : List (IntentStatus × IntentStatus) :=
  [(IntentStatus.PENDING, IntentStatus.IN_PROGRESS),
   (IntentStatus.IN_PROGRESS, IntentStatus.COMPLETED),
   (IntentStatus.IN_PROGRESS, IntentStatus.LOCKED),
   (IntentStatus.LOCKED, IntentStatus.IN_PROGRESS)]

/-- `intent.status ?? 'PENDING'` of `transitionStatus`: the raw string is
used unvalidated; an unrecognized value has no row in
`ALLOWED_TRANSITIONS` (modelled as `none`). -/
def rawStatusOrPending (r : RawIntent) : Option IntentStatus :=
  match r.status with
  | none => some IntentStatus.PENDING
  | some s => parseStatus s

/-- The illegal-transition error message of `transitionStatus`. -/
def illegalTransitionMsg (intentId : String) (src tgt : IntentStatus) : String :=
  "[IntentStatusManager] Illegal transition for " ++ intentId ++ ": " ++
  statusToString src ++ " → " ++ statusToString tgt ++ ". Allowed transitions from " ++
  statusToString src ++ ": [" ++
  orNoneWord (joinSep ", " ((allowedTransitions src).map statusToString)) ++ "]"

def transitionNotFoundMsg (intentId : String) : String :=
  "Intent \"" ++ intentId ++ "\" not found."

/-- In-place status update of the found intent (the source mutates the
object returned by `find` and saves the whole document). -/
def setStatusFirst : List RawIntent → String → String → List RawIntent
  | [], _, _ => []
  | i :: rest, intentId, st =>
    if i.id == intentId then { i with status := some st } :: rest
    else i :: setStatusFirst rest intentId st

/-- `transitionStatus` of intentStatusManager.ts over a parsed ledger.
`Except.error` models a thrown exception. -/
def transitionStatus (ledger : List RawIntent) (intentId : String) (tgt : IntentStatus) :
    Except String (List RawIntent) :=
  match ledger.find? (fun i => i.id == intentId) with
  | none => Except.error (transitionNotFoundMsg intentId)
  | some i =>
    match rawStatusOrPending i with
    | none => Except.error "TypeError"
    | some src =>
      if (allowedTransitions src).contains tgt then
        Except.ok (setStatusFirst ledger intentId (statusToString tgt))
      else Except.error (illegalTransitionMsg intentId src tgt)

/- ────────────────────────────────────────────────────────────────────────
   Part C.  Hook pipeline engine
   (src/hooks/hookEngine.ts, preToolUse.ts, scopeValidator.ts,
    approvalGuard.ts, postToolUse.ts)
   ──────────────────────────────────────────────────────────────────────── -/

/-- The fields of `event.payload` consumed by the core pipeline. -/
structure Payload where
  filePath : Option String
  command : Option String
  commandType : Option String
  deriving DecidableEq, Repr

/-- `ToolEvent` of hookEngine.ts. -/
structure ToolEvent where
  toolName : String
  intentId : String
  payload : Option Payload
  deriving DecidableEq, Repr

/-- `ToolResult` of hookEngine.ts (the `data` field is opaque and elided). -/
structure ToolResult where
  success : Bool
  message : Option String
  deriving DecidableEq, Repr

/-- `IntentContext` of preToolUse.ts. -/
structure IntentContext where
  id : String
  name : String
  status : IntentStatus
  owned_scope : List String
  constraints : List String
  acceptance_criteria : List String
  spec_ref : Option String
  deriving DecidableEq, Repr

/-- `HookContext` of preToolUse.ts; the feedback sink is the list of
`addFeedback` messages in order. -/
structure HookCtx where
  workspaceRoot : String
  allowedPaths : List String
  activeIntent : Option IntentContext
  feedback : List String
  deriving DecidableEq, Repr

def addFeedback (ctx : HookCtx) (msg : String) : HookCtx :=
  { ctx with feedback := ctx.feedback ++ [msg] }

/-- One line appended to `.orchestration/agent_trace.jsonl` by
`TraceLogger.logFileChange` (only the fields the claims observe). -/
structure TraceRecord where
  intentId : String
  relativePath : String
  deriving DecidableEq, Repr

/-- The guided-recovery message for a COMPLETED intent
(preToolUse status guard). -/
def completedMsg (intentId : String) (workable : List Intent) : String :=
  "Intent \"" ++ intentId ++ ("\" is " ++ ("COMPLETED" ++
    (" — no further changes allowed.\n  Available intents to work on: " ++
      orNone (joinSep ", " (workable.map intentEntryLabel)))))

/-- The guided-recovery message for a LOCKED intent. -/
def lockedMsg (intentId : String) : String :=
  "Intent \"" ++ intentId ++ "\" is LOCKED. Please contact the project owner to unlock it."

/-- `preToolUse(intentId, context)` of preToolUse.ts: load the intent,
guard COMPLETED/LOCKED, apply context-size controls, populate
`context.activeIntent` and `context.allowedPaths`.  `Except.error` carries
the thrown message together with the context (the catch block has already
appended the `[PreToolUse] Error:` feedback). -/
def preToolUseRun (doc : List RawIntent) (intentId : String) (ctx : HookCtx) :
    Except (String × HookCtx) HookCtx :=
  let path := activeIntentsPath ctx.workspaceRoot
  match loadIntentE doc path intentId with
  | Except.error e => Except.error (e, addFeedback ctx ("[PreToolUse] Error: " ++ e))
  | Except.ok intent =>
    if intent.status = IntentStatus.COMPLETED then
      let e := completedMsg intentId (workableIntents doc)
      Except.error (e, addFeedback ctx ("[PreToolUse] Error: " ++ e))
    else if intent.status = IntentStatus.LOCKED then
      let e := lockedMsg intentId
      Except.error (e, addFeedback ctx ("[PreToolUse] Error: " ++ e))
    else
      let scope := intent.owned_scope.take 10
      let constrs := (intent.constraints.map Prod.fst).take 20
      let crits := intent.acceptance_criteria.take 15
      let ic : IntentContext :=
        { id := intent.id, name := intent.description, status := intent.status,
          owned_scope := scope, constraints := constrs, acceptance_criteria := crits,
          spec_ref := intent.spec_ref }
      Except.ok { ctx with activeIntent := some ic, allowedPaths := scope }

/-- `a.startsWith(b)` / `a.isPrefixOf`, spelled out over characters. -/
def isPrefixOfChars : List Char → List Char → Bool
  | [], _ => true
  | a :: as, s =>
    match s with
    | [] => false
    | b :: bs => a = b && isPrefixOfChars as bs

/-- The context produced by a successful `preToolUse`: the intent loaded
by `event.intentId`, truncated by the context-size controls, installed as
`activeIntent`, with `allowedPaths` set to the (truncated) owned scope. -/
def contextLoadedCtx (ctx0 : HookCtx) (i : Intent) : HookCtx :=
  { ctx0 with
    activeIntent := some
      { id := i.id, name := i.description, status := i.status,
        owned_scope := i.owned_scope.take 10,
        constraints := (i.constraints.map Prod.fst).take 20,
        acceptance_criteria := i.acceptance_criteria.take 15,
        spec_ref := i.spec_ref },
    allowedPaths := i.owned_scope.take 10 }

/-- `allowed.replace(/\/\*\*$/, '')`: strip one trailing `/**`. -/
def stripGlobSuffix (s : String) : String :=
  if isPrefixOfChars ['*', '*', '/'] s.data.reverse then
    String.mk (s.data.take (s.data.length - 3))
  else s

/-- `path.resolve(root, rel)` restricted to the shapes the pipeline uses:
an already-absolute `rel` wins, otherwise the relative path is joined to
the root (no `.`/`..` normalization, which the claims do not exercise). -/
def resolvePath (root rel : String) : String :=
  if isPrefixOfChars ['/'] rel.data then rel else root ++ "/" ++ rel

/-- `scopeValidator(event, context)` of scopeValidator.ts.  Returns the
verdict and the context (feedback gains the violation message only on the
pattern-miss branch; a missing/empty `filePath` returns `false` silently). -/
def scopeValidatorRun (event : ToolEvent) (ctx : HookCtx) : Bool × HookCtx :=
  match event.payload with
  | none => (false, ctx)
  | some p =>
    match p.filePath with
    | none => (false, ctx)
    | some fp =>
      if fp = "" then (false, ctx)
      else
        let absolutePath := resolvePath ctx.workspaceRoot fp
        if ctx.allowedPaths.any
            (fun allowed =>
              isPrefixOfChars (resolvePath ctx.workspaceRoot (stripGlobSuffix allowed)).data
                absolutePath.data)
        then (true, ctx)
        else (false, addFeedback ctx ("Scope violation: Agent attempted to modify " ++ fp))

/-- `approvalGuard(event, context)`: prompts only when
`payload.commandType == "destructive"`; `approver` is the injected modal
answer. -/
def approvalGuardRun (approver : Bool) (event : ToolEvent) (ctx : HookCtx) : Bool × HookCtx :=
  let commandType := event.payload.bind Payload.commandType
  if commandType ≠ some "destructive" then (true, ctx)
  else
    let cmd := match event.payload.bind Payload.command with
      | some c => c
      | none => "undefined"
    if approver then (true, addFeedback ctx ("User approved command: " ++ cmd))
    else (false, addFeedback ctx ("User rejected command: " ++ cmd))

/-- `postToolUse(filePath, context)` of postToolUse.ts.  `fmtResult` is the
outcome of the prettier/eslint subprocesses: `Except.error` models a
thrown subprocess error (caught, turned into feedback, no trace);
`Except.ok (stdout, stderr)` is a successful run, after which
`TraceLogger.logFileChange` appends one record when an active intent is
present. -/
def postToolUseRun (fmtResult : Except String (String × String)) (filePath : String)
    (ctx : HookCtx) : HookCtx × List TraceRecord :=
  if filePath = "" then (ctx, [])
  else
    match fmtResult with
    | Except.error e =>
      (addFeedback ctx ("PostToolUse error for " ++ filePath ++ ": " ++ e), [])
    | Except.ok (out, errS) =>
      let ctx2 :=
        if errS ≠ "" then addFeedback ctx ("ESLint issues in " ++ filePath ++ ": " ++ errS)
        else if out ≠ "" then
          addFeedback ctx ("ESLint applied fixes to " ++ filePath ++ ": " ++ out)
        else ctx
      match ctx.activeIntent with
      | some intent => (ctx2, [{ intentId := intent.id, relativePath := filePath }])
      | none => (ctx2, [])

/-- Registered pre-hooks in registration order; the engine aborts on the
first `false` (pure hooks, so `List.all` has the same verdict). -/
def runPreHooks (hooks : List (ToolEvent → HookCtx → Bool)) (event : ToolEvent)
    (ctx : HookCtx) : Bool :=
  hooks.all (fun h => h event ctx)

/-- Registered post-hooks in registration order; the engine awaits each in
turn with no try/catch, so the first `Except.error` escapes. -/
def runPostHooks (hooks : List (ToolEvent → HookCtx → Except String Unit)) (event : ToolEvent)
    (ctx : HookCtx) : Except String Unit :=
  match hooks with
  | [] => Except.ok ()
  | h :: rest =>
    match h event ctx with
    | Except.error e => Except.error e
    | Except.ok _ => runPostHooks rest event ctx

/-- Stage 7 of `executeTool`: `if (event.payload?.filePath) await
postToolUse(event.payload.filePath, context)`. -/
def postTraceStage (fmtResult : Except String (String × String)) (event : ToolEvent)
    (ctx : HookCtx) : HookCtx × List TraceRecord :=
  match event.payload.bind Payload.filePath with
  | some fp =>
    if fp = "" then (ctx, ([] : List TraceRecord))
    else postToolUseRun fmtResult fp ctx
  | none => (ctx, ([] : List TraceRecord))

/-- The observable result of one `HookEngine.executeTool` run. -/
structure Outcome where
  success : Bool
  reason : Option String
  executorCalled : Bool
  trace : List TraceRecord
  feedback : List String
  deriving DecidableEq, Repr

/-- `HookEngine.executeTool` of hookEngine.ts, stage by stage.  The
`concurrency` parameter stands for the imported `concurrencyGuard` (its
implementation file is not part of the sources; every claim proved below
is independent of it).  The outer `Except.error` models an exception that
escapes `executeTool` itself (only possible from a registered post-hook,
which the source awaits without try/catch). -/
def executeTool (doc : List RawIntent)
    (preHooks : List (ToolEvent → HookCtx → Bool))
    (postHooks : List (ToolEvent → HookCtx → Except String Unit))
    (concurrency : ToolEvent → HookCtx → Bool)
    (approver : Bool)
    (fmtResult : Except String (String × String))
    (executor : ToolEvent → Except String ToolResult)
    (event : ToolEvent) (ctx0 : HookCtx) : Except String Outcome :=
  match preToolUseRun doc event.intentId ctx0 with
  | Except.error (e, ctx1) =>
    Except.ok { success := false, reason := some e, executorCalled := false,
                trace := [], feedback := ctx1.feedback }
  | Except.ok ctx1 =>
    if ¬ runPreHooks preHooks event ctx1 then
      Except.ok { success := false, reason := some "Pre-hook blocked execution",
                  executorCalled := false, trace := [], feedback := ctx1.feedback }
    else
      match scopeValidatorRun event ctx1 with
      | (false, ctx2) =>
        Except.ok { success := false, reason := some "Scope violation",
                    executorCalled := false, trace := [], feedback := ctx2.feedback }
      | (true, ctx2) =>
        if ¬ concurrency event ctx2 then
          Except.ok { success := false, reason := some "Concurrency conflict detected",
                      executorCalled := false, trace := [], feedback := ctx2.feedback }
        else
          match approvalGuardRun approver event ctx2 with
          | (false, ctx3) =>
            Except.ok { success := false, reason := some "Human approval denied",
                        executorCalled := false, trace := [], feedback := ctx3.feedback }
          | (true, ctx3) =>
            match executor event with
            | Except.error e =>
              Except.ok { success := false, reason := some e, executorCalled := true,
                          trace := [], feedback := ctx3.feedback }
            | Except.ok toolResult =>
              let step7 := postTraceStage fmtResult event ctx3
              match runPostHooks postHooks event step7.fst with
              | Except.error e => Except.error e
              | Except.ok _ =>
                Except.ok { success := toolResult.success, reason := toolResult.message,
                            executorCalled := true, trace := step7.snd,
                            feedback := step7.fst.feedback }

/- ────────────────────────────────────────────────────────────────────────
   Part D.  Trace ledger and revision oracle
   (src/utils/traceLogger.ts, src/utils/gitUtils.ts)
   ──────────────────────────────────────────────────────────────────────── -/

/-- `getCurrentGitSHA` of gitUtils.ts: the `git` argument is the outcome of
`execSync('git rev-parse HEAD')`; a thrown error (`Except.error`) is
swallowed and becomes the `"unknown"` sentinel, a successful stdout is
trimmed. -/
def getCurrentGitSHA (git : Except String String) : String :=
  match git with
  | Except.ok out => String.mk (trimChars out.data)
  | Except.error _ => "unknown"

/-- JSON values, as produced by `JSON.stringify` on the records handed to
`TraceLogger.log`. -/
inductive Json where
  | str (s : String)
  | num (n : Nat)
  | jbool (b : Bool)
  | null
  | arr (xs : List Json)
  | obj (fields : List (String × Json))
  deriving Repr

def hexDigitChars : List Char := "0123456789abcdef".data

def hexDigit (n : Nat) : Char := hexDigitChars.getD n '0'

/-- `JSON.stringify` escaping of one character inside a string literal. -/
def escapeChar (c : Char) : List Char :=
  if c = '"' then ['\\', '"']
  else if c = '\\' then ['\\', '\\']
  else if c = '\n' then ['\\', 'n']
  else if c = '\r' then ['\\', 'r']
  else if c = '\t' then ['\\', 't']
  else if c.toNat < 32 then
    ['\\', 'u', '0', '0', hexDigit (c.toNat / 16), hexDigit (c.toNat % 16)]
  else [c]

def serializeString (s : String) : List Char :=
  '"' :: (s.data.foldr (fun c acc => escapeChar c ++ acc) ['"'])

def natCharsFuel : Nat → Nat → List Char → List Char
  | 0, _, acc => acc
  | fuel + 1, n, acc =>
    if n < 10 then hexDigit n :: acc
    else natCharsFuel fuel (n / 10) (hexDigit (n % 10) :: acc)

/-- Decimal digit rendering of a natural number. -/
def natChars (n : Nat) : List Char := natCharsFuel (n + 1) n []

mutual

/-- `JSON.stringify` (single-line, no pretty printing). -/
def serializeJson : Json → List Char
  | Json.str s => serializeString s
  | Json.num n => natChars n
  | Json.jbool b => if b then "true".data else "false".data
  | Json.null => "null".data
  | Json.arr xs => '[' :: (serializeArr xs ++ [']'])
  | Json.obj fs => Char.ofNat 123 :: (serializeObj fs ++ [Char.ofNat 125])

def serializeArr : List Json → List Char
  | [] => []
  | [x] => serializeJson x
  | x :: y :: xs => serializeJson x ++ ',' :: serializeArr (y :: xs)

def serializeObj : List (String × Json) → List Char
  | [] => []
  | [(k, v)] => serializeString k ++ ':' :: serializeJson v
  | (k, v) :: p :: xs => serializeString k ++ ':' :: serializeJson v ++ ',' :: serializeObj (p :: xs)

end

/-- Field lookup in a JS object literal (first match). -/
def lookupField (fields : List (String × Json)) (k : String) : Option Json :=
  (fields.find? (fun p => p.fst == k)).map Prod.snd

/-- `{ ...record, k: v }`: override in place when the key exists (JS object
keys are unique), append otherwise. -/
def setField : List (String × Json) → String → Json → List (String × Json)
  | [], k, v => [(k, v)]
  | (k0, v0) :: rest, k, v =>
    if k0 == k then (k, v) :: rest else (k0, v0) :: setField rest k v

/-- The entry built by `TraceLogger.log(record)`:
`{ ...record, vcs: record.vcs ?? { revision_id: getCurrentGitSHA() },
timestamp: record.timestamp ?? new Date().toISOString() }`. -/
def logEntryFields (git : Except String String) (now : String)
    (record : List (String × Json)) : List (String × Json) :=
  let vcsVal :=
    match lookupField record "vcs" with
    | some v => v
    | none => Json.obj [("revision_id", Json.str (getCurrentGitSHA git))]
  let tsVal :=
    match lookupField record "timestamp" with
    | some t => t
    | none => Json.str now
  setField (setField record "vcs" vcsVal) "timestamp" tsVal

/-- The full line appended to the trace file:
`JSON.stringify(entry) + '\n'`. -/
def logLine (git : Except String String) (now : String)
    (record : List (String × Json)) : List Char :=
  serializeJson (Json.obj (logEntryFields git now record)) ++ ['\n']

/-- Substring containment, stated over the character lists. -/
def strContains (s sub : String) : Prop :=
  ∃ t u, s.data = t ++ (sub.data ++ u)

/- ────────────────────────────────────────────────────────────────────────
   Helper lemmas
   ──────────────────────────────────────────────────────────────────────── -/

theorem mcContains_iff {l : List MutationClass} {t : MutationClass} :
    l.contains t = true ↔ t ∈ l := by
  simp [List.contains, List.elem_iff]

theorem mem_insertTag {t m : MutationClass} {l : List MutationClass} :
    m ∈ insertTag t l ↔ m = t ∨ m ∈ l := by
  unfold insertTag
  by_cases h : t ∈ l
  · rw [if_pos (mcContains_iff.mpr h)]
    constructor
    · exact Or.inr
    · rintro (rfl | hm)
      · exact h
      · exact hm
  · rw [if_neg (fun hc => h (mcContains_iff.mp hc))]
    simp [List.mem_append, or_comm]

theorem collapsePair_eq_of_not_both {a d mo : MutationClass} {l : List MutationClass}
    (h : ¬(a ∈ l ∧ d ∈ l)) : collapsePair a d mo l = l := by
  unfold collapsePair
  rw [if_neg]
  intro hc
  rw [Bool.and_eq_true] at hc
  exact h ⟨mcContains_iff.mp hc.1, mcContains_iff.mp hc.2⟩

theorem collapsePair_eq_of_both {a d mo : MutationClass} {l : List MutationClass}
    (ha : a ∈ l) (hd : d ∈ l) :
    collapsePair a d mo l = insertTag mo (l.filter (fun m => m ≠ a && m ≠ d)) := by
  unfold collapsePair
  rw [if_pos]
  rw [Bool.and_eq_true]
  exact ⟨mcContains_iff.mpr ha, mcContains_iff.mpr hd⟩

theorem collapsePair_nil {a d mo : MutationClass} : collapsePair a d mo [] = [] :=
  collapsePair_eq_of_not_both (by simp)

theorem mem_collapsePair_other {a d mo x : MutationClass} {l : List MutationClass}
    (hx1 : x ≠ a) (hx2 : x ≠ d) (hx3 : x ≠ mo) :
    x ∈ collapsePair a d mo l ↔ x ∈ l := by
  by_cases h : a ∈ l ∧ d ∈ l
  · rw [collapsePair_eq_of_both h.1 h.2, mem_insertTag]
    simp [List.mem_filter, hx1, hx2, hx3]
  · rw [collapsePair_eq_of_not_both h]

theorem mod_mem_collapsePair {a d mo : MutationClass} {l : List MutationClass}
    (ha : a ∈ l) (hd : d ∈ l) : mo ∈ collapsePair a d mo l := by
  rw [collapsePair_eq_of_both ha hd, mem_insertTag]
  exact Or.inl rfl

theorem add_not_mem_collapsePair {a d mo : MutationClass} {l : List MutationClass}
    (ha : a ∈ l) (hd : d ∈ l) (hne : a ≠ mo) : a ∉ collapsePair a d mo l := by
  rw [collapsePair_eq_of_both ha hd, mem_insertTag]
  rintro (h | h)
  · exact hne h
  · simp [List.mem_filter] at h

theorem del_not_mem_collapsePair {a d mo : MutationClass} {l : List MutationClass}
    (ha : a ∈ l) (hd : d ∈ l) (hne : d ≠ mo) : d ∉ collapsePair a d mo l := by
  rw [collapsePair_eq_of_both ha hd, mem_insertTag]
  rintro (h | h)
  · exact hne h
  · simp [List.mem_filter] at h

theorem not_both_collapsePair {a d mo : MutationClass} {l : List MutationClass}
    (hane : a ≠ mo) (_hdne : d ≠ mo) :
    ¬(a ∈ collapsePair a d mo l ∧ d ∈ collapsePair a d mo l) := by
  by_cases h : a ∈ l ∧ d ∈ l
  · intro hc
    exact add_not_mem_collapsePair h.1 h.2 hane hc.1
  · rw [collapsePair_eq_of_not_both h]
    exact h

theorem classifyMutation_ite (before after : String) :
    classifyMutation before after =
      if (collapsedClasses before after).isEmpty &&
         (!(diffAdded before after).isEmpty || !(diffRemoved before after).isEmpty)
      then [MutationClass.REFACTOR_BLOCK]
      else collapsedClasses before after := rfl

theorem isEmpty_eq_false_of_ne {α : Type} {l : List α} (h : l ≠ []) : l.isEmpty = false := by
  cases l with
  | nil => exact absurd rfl h
  | cons a t => rfl

theorem classifyMutation_eq_collapsed {before after : String} {x : MutationClass}
    (hx : x ∈ collapsedClasses before after) :
    classifyMutation before after = collapsedClasses before after := by
  rw [classifyMutation_ite, if_neg]
  intro hc
  rw [Bool.and_eq_true] at hc
  exact List.ne_nil_of_mem hx (List.isEmpty_iff.mp hc.1)

theorem diffAdded_self (x : String) : diffAdded x x = [] := by
  unfold diffAdded
  apply List.filter_eq_nil_iff.mpr
  intro a ha
  simp [lineMem, ha]

theorem diffRemoved_self (x : String) : diffRemoved x x = [] := by
  unfold diffRemoved
  apply List.filter_eq_nil_iff.mpr
  intro a ha
  simp [lineMem, ha]

theorem classifyLine_no_match {l : List Char} {b : Bool} {acc : List MutationClass}
    (h : matchesAnyPattern l = false) : classifyLine l b acc = acc := by
  simp only [matchesAnyPattern, Bool.or_eq_false_iff] at h
  obtain ⟨⟨⟨⟨⟨⟨⟨h1, h2⟩, h3⟩, h4⟩, h5⟩, h6⟩, h7⟩, h8⟩ := h
  simp [classifyLine, h1, h2, h3, h4, h5, h6, h7, h8]

theorem classifyLines_no_match {lines : List (List Char)} {b : Bool}
    (h : ∀ l ∈ lines, matchesAnyPattern l = false) : classifyLines lines b = [] := by
  unfold classifyLines
  induction lines with
  | nil => rfl
  | cons x xs ih =>
    rw [List.foldl_cons, classifyLine_no_match (h x (List.mem_cons_self x xs))]
    exact ih (fun l hl => h l (List.mem_cons_of_mem x hl))

/- ────────────────────────────────────────────────────────────────────────
   Claim theorems: the mutation classifier (C4, C5)
   ──────────────────────────────────────────────────────────────────────── -/

/-- C4 (counterexample): the claim says a simultaneous add and delete of a
type/interface line collapses to `MODIFY_TYPE` (with `ADD_TYPE` as the
add-form).  On the source there is no collapse block for types:
`classifyMutation "type A = 1\n" "type B = 1\n"` keeps `ADD_TYPE` next to
`MODIFY_TYPE`, so the result is not the collapsed singleton. -/
theorem c4_counterexample :
    scanClasses "type A = 1\n" "type B = 1\n" =
      [MutationClass.ADD_TYPE, MutationClass.MODIFY_TYPE] ∧
    classifyMutation "type A = 1\n" "type B = 1\n" =
      [MutationClass.ADD_TYPE, MutationClass.MODIFY_TYPE] ∧
    MutationClass.ADD_TYPE ∈ classifyMutation "type A = 1\n" "type B = 1\n" ∧
    classifyMutation "type A = 1\n" "type B = 1\n" ≠ [MutationClass.MODIFY_TYPE] := by
  decide

/-- C4 (amended): for every `(before, after)` pair the result never
contains both the add and the delete form of the same collapsible category
(function, class, import); whenever the line scan produces both forms of
such a category the result contains the modify form and neither of the
pair; `classify("function a(){}\n", "function b(){}\n") = {MODIFY_FUNCTION}`;
for type/interface lines there is no collapse: a simultaneous add and
delete keeps both `ADD_TYPE` (the add-form) and `MODIFY_TYPE` (the
delete-form) in the result. -/
theorem c4_collapse_behavior (before after : String) :
    (¬ (MutationClass.ADD_FUNCTION ∈ classifyMutation before after ∧
        MutationClass.DELETE_FUNCTION ∈ classifyMutation before after)) ∧
    (¬ (MutationClass.ADD_CLASS ∈ classifyMutation before after ∧
        MutationClass.DELETE_CLASS ∈ classifyMutation before after)) ∧
    (¬ (MutationClass.ADD_IMPORT ∈ classifyMutation before after ∧
        MutationClass.DELETE_IMPORT ∈ classifyMutation before after)) ∧
    (MutationClass.ADD_FUNCTION ∈ scanClasses before after →
     MutationClass.DELETE_FUNCTION ∈ scanClasses before after →
       MutationClass.MODIFY_FUNCTION ∈ classifyMutation before after ∧
       MutationClass.ADD_FUNCTION ∉ classifyMutation before after ∧
       MutationClass.DELETE_FUNCTION ∉ classifyMutation before after) ∧
    (MutationClass.ADD_CLASS ∈ scanClasses before after →
     MutationClass.DELETE_CLASS ∈ scanClasses before after →
       MutationClass.MODIFY_CLASS ∈ classifyMutation before after ∧
       MutationClass.ADD_CLASS ∉ classifyMutation before after ∧
       MutationClass.DELETE_CLASS ∉ classifyMutation before after) ∧
    (MutationClass.ADD_IMPORT ∈ scanClasses before after →
     MutationClass.DELETE_IMPORT ∈ scanClasses before after →
       MutationClass.MODIFY_IMPORT ∈ classifyMutation before after ∧
       MutationClass.ADD_IMPORT ∉ classifyMutation before after ∧
       MutationClass.DELETE_IMPORT ∉ classifyMutation before after) ∧
    (MutationClass.ADD_TYPE ∈ scanClasses before after →
     MutationClass.MODIFY_TYPE ∈ scanClasses before after →
       MutationClass.ADD_TYPE ∈ classifyMutation before after ∧
       MutationClass.MODIFY_TYPE ∈ classifyMutation before after) ∧
    classifyMutation "function a()\x7b\x7d\n" "function b()\x7b\x7d\n" =
      [MutationClass.MODIFY_FUNCTION] := by
  refine ⟨?_, ?_, ?_, ?_, ?_, ?_, ?_, by decide⟩
  · rintro ⟨hadd, hdel⟩
    rw [classifyMutation_ite] at hadd hdel
    by_cases hc : ((collapsedClasses before after).isEmpty &&
        (!(diffAdded before after).isEmpty || !(diffRemoved before after).isEmpty)) = true
    · rw [if_pos hc] at hadd
      simp at hadd
    · rw [if_neg hc] at hadd hdel
      unfold collapsedClasses at hadd hdel
      rw [mem_collapsePair_other (by decide) (by decide) (by decide)] at hadd hdel
      rw [mem_collapsePair_other (by decide) (by decide) (by decide)] at hadd hdel
      exact not_both_collapsePair (by decide) (by decide) ⟨hadd, hdel⟩
  · rintro ⟨hadd, hdel⟩
    rw [classifyMutation_ite] at hadd hdel
    by_cases hc : ((collapsedClasses before after).isEmpty &&
        (!(diffAdded before after).isEmpty || !(diffRemoved before after).isEmpty)) = true
    · rw [if_pos hc] at hadd
      simp at hadd
    · rw [if_neg hc] at hadd hdel
      unfold collapsedClasses at hadd hdel
      rw [mem_collapsePair_other (by decide) (by decide) (by decide)] at hadd hdel
      exact not_both_collapsePair (by decide) (by decide) ⟨hadd, hdel⟩
  · rintro ⟨hadd, hdel⟩
    rw [classifyMutation_ite] at hadd hdel
    by_cases hc : ((collapsedClasses before after).isEmpty &&
        (!(diffAdded before after).isEmpty || !(diffRemoved before after).isEmpty)) = true
    · rw [if_pos hc] at hadd
      simp at hadd
    · rw [if_neg hc] at hadd hdel
      unfold collapsedClasses at hadd hdel
      exact not_both_collapsePair (by decide) (by decide) ⟨hadd, hdel⟩
  · intro hadd hdel
    have h1 : MutationClass.MODIFY_FUNCTION ∈
        collapsePair MutationClass.ADD_FUNCTION MutationClass.DELETE_FUNCTION
          MutationClass.MODIFY_FUNCTION (scanClasses before after) :=
      mod_mem_collapsePair hadd hdel
    have h3 : MutationClass.MODIFY_FUNCTION ∈ collapsedClasses before after := by
      unfold collapsedClasses
      rw [mem_collapsePair_other (by decide) (by decide) (by decide),
          mem_collapsePair_other (by decide) (by decide) (by decide)]
      exact h1
    have hEq := classifyMutation_eq_collapsed h3
    refine ⟨hEq ▸ h3, ?_, ?_⟩
    · rw [hEq]
      unfold collapsedClasses
      rw [mem_collapsePair_other (by decide) (by decide) (by decide),
          mem_collapsePair_other (by decide) (by decide) (by decide)]
      exact add_not_mem_collapsePair hadd hdel (by decide)
    · rw [hEq]
      unfold collapsedClasses
      rw [mem_collapsePair_other (by decide) (by decide) (by decide),
          mem_collapsePair_other (by decide) (by decide) (by decide)]
      exact del_not_mem_collapsePair hadd hdel (by decide)
  · intro hadd hdel
    have hadd1 : MutationClass.ADD_CLASS ∈
        collapsePair MutationClass.ADD_FUNCTION MutationClass.DELETE_FUNCTION
          MutationClass.MODIFY_FUNCTION (scanClasses before after) :=
      (mem_collapsePair_other (by decide) (by decide) (by decide)).mpr hadd
    have hdel1 : MutationClass.DELETE_CLASS ∈
        collapsePair MutationClass.ADD_FUNCTION MutationClass.DELETE_FUNCTION
          MutationClass.MODIFY_FUNCTION (scanClasses before after) :=
      (mem_collapsePair_other (by decide) (by decide) (by decide)).mpr hdel
    have h1 : MutationClass.MODIFY_CLASS ∈
        collapsePair MutationClass.ADD_CLASS MutationClass.DELETE_CLASS
          MutationClass.MODIFY_CLASS
          (collapsePair MutationClass.ADD_FUNCTION MutationClass.DELETE_FUNCTION
            MutationClass.MODIFY_FUNCTION (scanClasses before after)) :=
      mod_mem_collapsePair hadd1 hdel1
    have h3 : MutationClass.MODIFY_CLASS ∈ collapsedClasses before after := by
      unfold collapsedClasses
      rw [mem_collapsePair_other (by decide) (by decide) (by decide)]
      exact h1
    have hEq := classifyMutation_eq_collapsed h3
    refine ⟨hEq ▸ h3, ?_, ?_⟩
    · rw [hEq]
      unfold collapsedClasses
      rw [mem_collapsePair_other (by decide) (by decide) (by decide)]
      exact add_not_mem_collapsePair hadd1 hdel1 (by decide)
    · rw [hEq]
      unfold collapsedClasses
      rw [mem_collapsePair_other (by decide) (by decide) (by decide)]
      exact del_not_mem_collapsePair hadd1 hdel1 (by decide)
  · intro hadd hdel
    have hadd1 : MutationClass.ADD_IMPORT ∈
        collapsePair MutationClass.ADD_CLASS MutationClass.DELETE_CLASS
          MutationClass.MODIFY_CLASS
          (collapsePair MutationClass.ADD_FUNCTION MutationClass.DELETE_FUNCTION
            MutationClass.MODIFY_FUNCTION (scanClasses before after)) := by
      rw [mem_collapsePair_other (by decide) (by decide) (by decide),
          mem_collapsePair_other (by decide) (by decide) (by decide)]
      exact hadd
    have hdel1 : MutationClass.DELETE_IMPORT ∈
        collapsePair MutationClass.ADD_CLASS MutationClass.DELETE_CLASS
          MutationClass.MODIFY_CLASS
          (collapsePair MutationClass.ADD_FUNCTION MutationClass.DELETE_FUNCTION
            MutationClass.MODIFY_FUNCTION (scanClasses before after)) := by
      rw [mem_collapsePair_other (by decide) (by decide) (by decide),
          mem_collapsePair_other (by decide) (by decide) (by decide)]
      exact hdel
    have h3 : MutationClass.MODIFY_IMPORT ∈ collapsedClasses before after :=
      mod_mem_collapsePair hadd1 hdel1
    have hEq := classifyMutation_eq_collapsed h3
    refine ⟨hEq ▸ h3, ?_, ?_⟩
    · rw [hEq]
      unfold collapsedClasses
      exact add_not_mem_collapsePair hadd1 hdel1 (by decide)
    · rw [hEq]
      unfold collapsedClasses
      exact del_not_mem_collapsePair hadd1 hdel1 (by decide)
  · intro hadd hmod
    have h3 : MutationClass.ADD_TYPE ∈ collapsedClasses before after := by
      unfold collapsedClasses
      rw [mem_collapsePair_other (by decide) (by decide) (by decide),
          mem_collapsePair_other (by decide) (by decide) (by decide),
          mem_collapsePair_other (by decide) (by decide) (by decide)]
      exact hadd
    have h4 : MutationClass.MODIFY_TYPE ∈ collapsedClasses before after := by
      unfold collapsedClasses
      rw [mem_collapsePair_other (by decide) (by decide) (by decide),
          mem_collapsePair_other (by decide) (by decide) (by decide),
          mem_collapsePair_other (by decide) (by decide) (by decide)]
      exact hmod
    have hEq := classifyMutation_eq_collapsed h3
    exact ⟨hEq ▸ h3, hEq ▸ h4⟩

/-- C4 (witness): the amended theorem applied at the concrete S5 input
`("function a(){}\n", "function b(){}\n")`, whose line scan produces both
`ADD_FUNCTION` and `DELETE_FUNCTION`. -/
theorem c4_collapse_behavior_witness :
    MutationClass.MODIFY_FUNCTION ∈
      classifyMutation "function a()\x7b\x7d\n" "function b()\x7b\x7d\n" ∧
    MutationClass.ADD_FUNCTION ∉
      classifyMutation "function a()\x7b\x7d\n" "function b()\x7b\x7d\n" ∧
    MutationClass.DELETE_FUNCTION ∉
      classifyMutation "function a()\x7b\x7d\n" "function b()\x7b\x7d\n" :=
  (c4_collapse_behavior "function a()\x7b\x7d\n" "function b()\x7b\x7d\n").2.2.2.1
    (by decide) (by decide)

/-- C5: `classifyMutation` is a Lean function (hence deterministic) whose
result is always a subset of the fixed fourteen-tag set; for every string
`x`, `classify(x, x)` is empty; whenever the trimmed non-empty line diff is
non-empty but no diff line matches any pattern of the table, the result is
exactly `{REFACTOR_BLOCK}`; and
`classify("let x = 1\n", "let x = 2\n") = {REFACTOR_BLOCK}`. -/
theorem c5_classifier_basic :
    (∀ x : String, classifyMutation x x = []) ∧
    (∀ before after : String, ∀ m ∈ classifyMutation before after, m ∈ allMutationClasses) ∧
    (∀ before after : String,
      (diffAdded before after ≠ [] ∨ diffRemoved before after ≠ []) →
      (∀ l ∈ diffAdded before after, matchesAnyPattern l = false) →
      (∀ l ∈ diffRemoved before after, matchesAnyPattern l = false) →
      classifyMutation before after = [MutationClass.REFACTOR_BLOCK]) ∧
    classifyMutation "let x = 1\n" "let x = 2\n" = [MutationClass.REFACTOR_BLOCK] := by
  refine ⟨?_, ?_, ?_, by decide⟩
  · intro x
    have hs : scanClasses x x = [] := by
      unfold scanClasses
      rw [diffAdded_self, diffRemoved_self]
      rfl
    have hm3 : collapsedClasses x x = [] := by
      unfold collapsedClasses
      rw [hs, collapsePair_nil, collapsePair_nil, collapsePair_nil]
    rw [classifyMutation_ite, hm3, diffAdded_self, diffRemoved_self]
    simp
  · intro before after m _
    cases m <;> simp [allMutationClasses]
  · intro before after hne hAdd hRem
    have hs : scanClasses before after = [] := by
      unfold scanClasses
      rw [classifyLines_no_match hAdd, classifyLines_no_match hRem]
      rfl
    have hm3 : collapsedClasses before after = [] := by
      unfold collapsedClasses
      rw [hs, collapsePair_nil, collapsePair_nil, collapsePair_nil]
    rw [classifyMutation_ite, hm3]
    rcases hne with h | h
    · rw [isEmpty_eq_false_of_ne h]
      simp
    · rw [isEmpty_eq_false_of_ne h]
      simp

/-- C5 (witness): the fallback clause of the claim theorem applied at the
concrete S6 input `("let x = 1\n", "let x = 2\n")`, and the empty-diff
clause at `"abc"`. -/
theorem c5_classifier_basic_witness :
    classifyMutation "let x = 1\n" "let x = 2\n" = [MutationClass.REFACTOR_BLOCK] ∧
    classifyMutation "abc" "abc" = [] :=
  ⟨c5_classifier_basic.2.2.1 "let x = 1\n" "let x = 2\n" (by decide) (by decide) (by decide),
   c5_classifier_basic.1 "abc"⟩

/- ────────────────────────────────────────────────────────────────────────
   Claim theorems: the intent state machine (C1) and loader (C8)
   ──────────────────────────────────────────────────────────────────────── -/

theorem statusContains_iff {l : List IntentStatus} {t : IntentStatus} :
    l.contains t = true ↔ t ∈ l := by
  simp [List.contains, List.elem_iff]

/-- C1 (counterexample): the spec's legal table admits
`LOCKED → IN_PROGRESS` (the administrative override), but on the source
`ALLOWED_TRANSITIONS.LOCKED` is the empty list, so an explicit
`transitionStatus(id, IN_PROGRESS)` on a LOCKED intent throws the
illegal-transition error instead of succeeding. -/
theorem c1_counterexample :
    (IntentStatus.LOCKED, IntentStatus.IN_PROGRESS) ∈ specLegalTransitions ∧
    transitionStatus [⟨"INT-001", "d", some "LOCKED", ["src/**"], [], [], none⟩]
        "INT-001" IntentStatus.IN_PROGRESS =
      Except.error
        (illegalTransitionMsg "INT-001" IntentStatus.LOCKED IntentStatus.IN_PROGRESS) :=
  ⟨by decide, rfl⟩

/-- C1 (amended): for an intent present in the ledger with a valid-or-missing
raw status, `transitionStatus(id, target)` succeeds exactly when
`(current → target)` is in the source table
`{PENDING → IN_PROGRESS, IN_PROGRESS → COMPLETED, IN_PROGRESS → LOCKED}`
(`COMPLETED` and `LOCKED` are both terminal: in particular
`LOCKED → IN_PROGRESS` fails, and `PENDING → COMPLETED` fails), and a
failing transition throws the illegal-transition error. -/
theorem c1_transition_amended (ledger : List RawIntent) (intentId : String)
    (tgt : IntentStatus) (i : RawIntent) (src : IntentStatus)
    (hfind : ledger.find? (fun j => j.id == intentId) = some i)
    (hsrc : rawStatusOrPending i = some src) :
    ((∃ out, transitionStatus ledger intentId tgt = Except.ok out) ↔
      tgt ∈ allowedTransitions src) ∧
    (tgt ∈ allowedTransitions src ↔
      (src = IntentStatus.PENDING ∧ tgt = IntentStatus.IN_PROGRESS) ∨
      (src = IntentStatus.IN_PROGRESS ∧
        (tgt = IntentStatus.COMPLETED ∨ tgt = IntentStatus.LOCKED))) ∧
    (tgt ∉ allowedTransitions src →
      transitionStatus ledger intentId tgt =
        Except.error (illegalTransitionMsg intentId src tgt)) := by
  have hred : transitionStatus ledger intentId tgt =
      if (allowedTransitions src).contains tgt then
        Except.ok (setStatusFirst ledger intentId (statusToString tgt))
      else Except.error (illegalTransitionMsg intentId src tgt) := by
    simp only [transitionStatus, hfind, hsrc]
  refine ⟨?_, ?_, ?_⟩
  · constructor
    · rintro ⟨out, hout⟩
      rw [hred] at hout
      by_cases hc : (allowedTransitions src).contains tgt = true
      · exact statusContains_iff.mp hc
      · rw [if_neg hc] at hout
        cases hout
    · intro hmem
      rw [hred, if_pos (statusContains_iff.mpr hmem)]
      exact ⟨_, rfl⟩
  · cases src <;> cases tgt <;> simp [allowedTransitions]
  · intro hmem
    rw [hred, if_neg (fun hc => hmem (statusContains_iff.mp hc))]

/-- C1 (witness): the amended theorem applied at a one-intent ledger with
status `PENDING` and target `IN_PROGRESS` (a legal transition). -/
theorem c1_transition_amended_witness :
    ∃ out, transitionStatus [⟨"INT-001", "d", some "PENDING", ["src/**"], [], [], none⟩]
        "INT-001" IntentStatus.IN_PROGRESS = Except.ok out :=
  ((c1_transition_amended
      [⟨"INT-001", "d", some "PENDING", ["src/**"], [], [], none⟩]
      "INT-001" IntentStatus.IN_PROGRESS _ IntentStatus.PENDING rfl rfl).1).mpr (by decide)

/-- C8 (counterexample): an intent whose raw status is the empty string has
an unrecognized status value, is normalized to `PENDING`, yet no warning
diagnostic is emitted — the source guards the warning with the truthiness
check `intent.status && ...`, so the falsy `""` is silently defaulted. -/
theorem c8_counterexample :
    parseStatus "" = none ∧
    (loadIntents [⟨"INT-009", "d", some "", ["src/**"], [], [], none⟩]).fst.map Intent.status
      = [IntentStatus.PENDING] ∧
    (loadIntents [⟨"INT-009", "d", some "", ["src/**"], [], [], none⟩]).snd = [] := by
  decide

/-- C8 (amended): every intent returned by `loadIntents` has one of the
four legal statuses; a missing or unrecognized raw status is normalized to
`PENDING`; a warning diagnostic is emitted for each *non-empty*
unrecognized status value (a present-but-empty status is silently
defaulted); and all other fields are returned unchanged. -/
theorem c8_load_normalization (doc : List RawIntent) :
    ((loadIntents doc).fst = doc.map normalizeIntent) ∧
    (∀ i ∈ (loadIntents doc).fst,
        i.status = IntentStatus.PENDING ∨ i.status = IntentStatus.IN_PROGRESS ∨
        i.status = IntentStatus.COMPLETED ∨ i.status = IntentStatus.LOCKED) ∧
    (∀ r ∈ doc,
        (r.status = none ∨ ∃ s, r.status = some s ∧ parseStatus s = none) →
        (normalizeIntent r).status = IntentStatus.PENDING) ∧
    (∀ r ∈ doc, ∀ s, r.status = some s → s ≠ "" → parseStatus s = none →
        mkStatusWarning r.id s ∈ (loadIntents doc).snd) ∧
    (∀ r ∈ doc,
        (normalizeIntent r).id = r.id ∧
        (normalizeIntent r).description = r.description ∧
        (normalizeIntent r).owned_scope = r.owned_scope ∧
        (normalizeIntent r).constraints = r.constraints ∧
        (normalizeIntent r).acceptance_criteria = r.acceptance_criteria ∧
        (normalizeIntent r).spec_ref = r.spec_ref) := by
  refine ⟨rfl, ?_, ?_, ?_, ?_⟩
  · intro i _
    cases h : i.status <;> simp
  · intro r _ h
    unfold normalizeIntent
    rcases h with h | ⟨s, hs, hp⟩
    · simp [h]
    · simp [hs, hp]
  · intro r hr s hs hne hp
    have hw : statusWarnings r = [mkStatusWarning r.id s] := by
      simp only [statusWarnings, hs]
      rw [if_pos ⟨hne, by rw [hp]; rfl⟩]
    apply List.mem_flatten.mpr
    exact ⟨statusWarnings r, List.mem_map_of_mem statusWarnings hr, by
      rw [hw]; exact List.mem_singleton.mpr rfl⟩
  · intro r _
    exact ⟨rfl, rfl, rfl, rfl, rfl, rfl⟩

/-- C8 (witness): the amended theorem applied to a two-intent document with
one unknown status `"WIP"`: the normalization and the emitted warning,
evaluated concretely. -/
theorem c8_load_normalization_witness :
    (normalizeIntent ⟨"INT-002", "d", some "WIP", ["src/**"], [], [], none⟩).status
      = IntentStatus.PENDING ∧
    mkStatusWarning "INT-002" "WIP" ∈
      (loadIntents [⟨"INT-002", "d", some "WIP", ["src/**"], [], [], none⟩]).snd :=
  ⟨(c8_load_normalization [⟨"INT-002", "d", some "WIP", ["src/**"], [], [], none⟩]).2.2.1
      ⟨"INT-002", "d", some "WIP", ["src/**"], [], [], none⟩ (by decide)
      (Or.inr ⟨"WIP", rfl, by decide⟩),
   (c8_load_normalization [⟨"INT-002", "d", some "WIP", ["src/**"], [], [], none⟩]).2.2.2.1
      ⟨"INT-002", "d", some "WIP", ["src/**"], [], [], none⟩ (by decide) "WIP" rfl
      (by decide) (by decide)⟩

/- ────────────────────────────────────────────────────────────────────────
   Pipeline helper lemmas
   ──────────────────────────────────────────────────────────────────────── -/

theorem orNone_of_ne {s : String} (h : s ≠ "") : orNone s = s := if_neg h

theorem preToolUseRun_ok (doc : List RawIntent) (intentId : String) (ctx0 : HookCtx)
    (i : Intent)
    (hfind : (loadIntents doc).fst.find? (fun j => j.id == intentId) = some i)
    (hC : i.status ≠ IntentStatus.COMPLETED) (hL : i.status ≠ IntentStatus.LOCKED) :
    preToolUseRun doc intentId ctx0 = Except.ok (contextLoadedCtx ctx0 i) := by
  simp [preToolUseRun, loadIntentE, hfind, hC, hL, contextLoadedCtx]

theorem completedMsg_contains_completed (intentId : String) (workable : List Intent) :
    strContains (completedMsg intentId workable) "COMPLETED" := by
  refine ⟨"Intent \"".data ++ (intentId.data ++ "\" is ".data),
    " — no further changes allowed.\n  Available intents to work on: ".data ++
      (orNone (joinSep ", " (workable.map intentEntryLabel))).data, ?_⟩
  simp only [completedMsg, String.data_append, List.append_assoc]

theorem joinSep_cons_data (sep x : String) (xs : List String) :
    ∃ u, (joinSep sep (x :: xs)).data = x.data ++ u := by
  cases xs with
  | nil => exact ⟨[], by simp [joinSep]⟩
  | cons y ys =>
    refine ⟨sep.data ++ (joinSep sep (y :: ys)).data, ?_⟩
    simp [joinSep, String.data_append, List.append_assoc]

theorem intentEntryLabel_data (w : Intent) :
    (intentEntryLabel w).data =
      w.id.data ++ (" (".data ++ ((statusToString w.status).data ++ ")".data)) := by
  simp [intentEntryLabel, String.data_append]

theorem workableJoin_ne_empty (w : Intent) (ws : List Intent) :
    joinSep ", " (intentEntryLabel w :: ws.map intentEntryLabel) ≠ "" := by
  intro h
  obtain ⟨u, hu⟩ := joinSep_cons_data ", " (intentEntryLabel w) (ws.map intentEntryLabel)
  have hd : (joinSep ", " (intentEntryLabel w :: ws.map intentEntryLabel)).data =
      ([] : List Char) := congrArg String.data h
  rw [hu, intentEntryLabel_data] at hd
  have h2 := (List.append_eq_nil.mp hd).1
  have h3 := (List.append_eq_nil.mp h2).2
  have h4 := (List.append_eq_nil.mp h3).1
  exact absurd h4 (by decide)

theorem completedMsg_contains_head_id (intentId : String) (w : Intent) (ws : List Intent) :
    strContains (completedMsg intentId (w :: ws)) w.id := by
  obtain ⟨u, hu⟩ := joinSep_cons_data ", " (intentEntryLabel w) (ws.map intentEntryLabel)
  have hne := workableJoin_ne_empty w ws
  refine ⟨"Intent \"".data ++ (intentId.data ++ ("\" is ".data ++ ("COMPLETED".data ++
            " — no further changes allowed.\n  Available intents to work on: ".data))),
          " (".data ++ ((statusToString w.status).data ++ (")".data ++ u)), ?_⟩
  simp only [completedMsg, List.map_cons]
  rw [orNone_of_ne hne]
  simp only [String.data_append]
  rw [hu, intentEntryLabel_data]
  simp [List.append_assoc]

/- ────────────────────────────────────────────────────────────────────────
   Claim theorems: the hook pipeline (C2, C3, C10, C6, C7)
   ──────────────────────────────────────────────────────────────────────── -/

/-- C2: for every ToolEvent whose intent has status COMPLETED or LOCKED,
`executeTool` returns `{success: false, reason}` without ever calling the
caller-supplied executor and without appending a trace; for a COMPLETED
intent, the reason is the guided-recovery message, which contains the
string `"COMPLETED"` and (when at least one workable intent exists) the id
of the first workable intent. -/
theorem c2_completed_locked
    (doc : List RawIntent) (preHooks : List (ToolEvent → HookCtx → Bool))
    (postHooks : List (ToolEvent → HookCtx → Except String Unit))
    (concurrency : ToolEvent → HookCtx → Bool) (approver : Bool)
    (fmtResult : Except String (String × String))
    (executor : ToolEvent → Except String ToolResult)
    (event : ToolEvent) (ctx0 : HookCtx) (i : Intent)
    (hfind : (loadIntents doc).fst.find? (fun j => j.id == event.intentId) = some i)
    (hstat : i.status = IntentStatus.COMPLETED ∨ i.status = IntentStatus.LOCKED) :
    ∃ o, executeTool doc preHooks postHooks concurrency approver fmtResult executor event ctx0
        = Except.ok o ∧
      o.success = false ∧ o.executorCalled = false ∧ o.trace = [] ∧ o.reason.isSome = true ∧
      (i.status = IntentStatus.COMPLETED →
        o.reason = some (completedMsg event.intentId (workableIntents doc)) ∧
        ∀ w ws, workableIntents doc = w :: ws →
          strContains (completedMsg event.intentId (workableIntents doc)) "COMPLETED" ∧
          strContains (completedMsg event.intentId (workableIntents doc)) w.id) ∧
      (i.status = IntentStatus.LOCKED → o.reason = some (lockedMsg event.intentId)) := by
  rcases hstat with hC | hL
  · have hpre : preToolUseRun doc event.intentId ctx0 =
        Except.error (completedMsg event.intentId (workableIntents doc),
          addFeedback ctx0
            ("[PreToolUse] Error: " ++ completedMsg event.intentId (workableIntents doc))) := by
      simp [preToolUseRun, loadIntentE, hfind, hC]
    refine ⟨{ success := false,
              reason := some (completedMsg event.intentId (workableIntents doc)),
              executorCalled := false, trace := [],
              feedback := (addFeedback ctx0
                ("[PreToolUse] Error: " ++
                  completedMsg event.intentId (workableIntents doc))).feedback },
            ?_, rfl, rfl, rfl, rfl, ?_, ?_⟩
    · simp [executeTool, hpre]
    · intro _
      refine ⟨rfl, ?_⟩
      intro w ws hw
      rw [hw]
      exact ⟨completedMsg_contains_completed _ _, completedMsg_contains_head_id _ _ _⟩
    · intro h
      rw [hC] at h
      exact absurd h (by decide)
  · have hC' : i.status ≠ IntentStatus.COMPLETED := by rw [hL]; decide
    have hpre : preToolUseRun doc event.intentId ctx0 =
        Except.error (lockedMsg event.intentId,
          addFeedback ctx0 ("[PreToolUse] Error: " ++ lockedMsg event.intentId)) := by
      simp [preToolUseRun, loadIntentE, hfind, hC', hL]
    refine ⟨{ success := false, reason := some (lockedMsg event.intentId),
              executorCalled := false, trace := [],
              feedback := (addFeedback ctx0
                ("[PreToolUse] Error: " ++ lockedMsg event.intentId)).feedback },
            ?_, rfl, rfl, rfl, rfl, ?_, ?_⟩
    · simp [executeTool, hpre]
    · intro h
      rw [hL] at h
      exact absurd h (by decide)
    · intro _
      exact rfl

/-- C2 (witness): the theorem applied to a concrete ledger holding the
COMPLETED intent `INT-003` and the workable intent `INT-001`. -/
theorem c2_completed_locked_witness :
    ∃ o, executeTool
        [⟨"INT-003", "done", some "COMPLETED", ["src/**"], [], [], none⟩,
         ⟨"INT-001", "work", some "PENDING", ["src/**"], [], [], none⟩]
        [] [] (fun _ _ => true) true (Except.ok ("", ""))
        (fun _ => Except.ok ⟨true, none⟩)
        ⟨"write_file", "INT-003", none⟩ ⟨"/w", [], none, []⟩ = Except.ok o ∧
      o.success = false ∧ o.executorCalled = false := by
  obtain ⟨o, h1, h2, h3, -⟩ :=
    c2_completed_locked
      [⟨"INT-003", "done", some "COMPLETED", ["src/**"], [], [], none⟩,
       ⟨"INT-001", "work", some "PENDING", ["src/**"], [], [], none⟩]
      [] [] (fun _ _ => true) true (Except.ok ("", ""))
      (fun _ => Except.ok ⟨true, none⟩)
      ⟨"write_file", "INT-003", none⟩ ⟨"/w", [], none, []⟩
      ⟨"INT-003", "done", IntentStatus.COMPLETED, ["src/**"], [], [], none⟩
      rfl (Or.inl rfl)
  exact ⟨o, h1, h2, h3⟩

/-- C3: once the intent context is loaded and the registered pre-hooks
allow, an event whose `payload.filePath` (resolved against the workspace
root) lies outside every `owned_scope` pattern (directory-prefix test
after stripping a trailing `/**`) makes `executeTool` return
`{success: false, reason: "Scope violation"}` without calling the executor
(the result does not depend on `concurrency`, `approver`, `fmtResult`,
`executor` or `postHooks`), without appending any trace record, and with
the feedback sink containing
`"Scope violation: Agent attempted to modify <filePath>"`. -/
theorem c3_scope_violation
    (doc : List RawIntent) (preHooks : List (ToolEvent → HookCtx → Bool))
    (postHooks : List (ToolEvent → HookCtx → Except String Unit))
    (concurrency : ToolEvent → HookCtx → Bool) (approver : Bool)
    (fmtResult : Except String (String × String))
    (executor : ToolEvent → Except String ToolResult)
    (event : ToolEvent) (ctx0 : HookCtx) (i : Intent) (fp : String)
    (hfind : (loadIntents doc).fst.find? (fun j => j.id == event.intentId) = some i)
    (hC : i.status ≠ IntentStatus.COMPLETED) (hL : i.status ≠ IntentStatus.LOCKED)
    (hhooks : runPreHooks preHooks event (contextLoadedCtx ctx0 i) = true)
    (hfp : event.payload.bind Payload.filePath = some fp)
    (hne : fp ≠ "")
    (hscope : ∀ pat ∈ i.owned_scope,
        isPrefixOfChars (resolvePath ctx0.workspaceRoot (stripGlobSuffix pat)).data
          (resolvePath ctx0.workspaceRoot fp).data = false) :
    executeTool doc preHooks postHooks concurrency approver fmtResult executor event ctx0 =
      Except.ok
        { success := false, reason := some "Scope violation", executorCalled := false,
          trace := [],
          feedback := ctx0.feedback ++
            ["Scope violation: Agent attempted to modify " ++ fp] } ∧
    ("Scope violation: Agent attempted to modify " ++ fp) ∈
      (ctx0.feedback ++ ["Scope violation: Agent attempted to modify " ++ fp]) := by
  have hpre := preToolUseRun_ok doc event.intentId ctx0 i hfind hC hL
  have hscopeRun : scopeValidatorRun event (contextLoadedCtx ctx0 i) =
      (false, addFeedback (contextLoadedCtx ctx0 i)
        ("Scope violation: Agent attempted to modify " ++ fp)) := by
    rcases hp : event.payload with _ | p
    · rw [hp] at hfp
      exact absurd hfp (by simp)
    · rw [hp] at hfp
      have hfp' : p.filePath = some fp := hfp
      have hany : (contextLoadedCtx ctx0 i).allowedPaths.any
          (fun allowed =>
            isPrefixOfChars
              (resolvePath (contextLoadedCtx ctx0 i).workspaceRoot (stripGlobSuffix allowed)).data
              (resolvePath (contextLoadedCtx ctx0 i).workspaceRoot fp).data) = false := by
        apply List.any_eq_false.mpr
        intro pat hpat
        have hmem : pat ∈ i.owned_scope := List.take_subset 10 i.owned_scope hpat
        have := hscope pat hmem
        simpa [contextLoadedCtx] using this
      simp [scopeValidatorRun, hp, hfp', hne, hany]
  constructor
  · have hfb : (contextLoadedCtx ctx0 i).feedback = ctx0.feedback := rfl
    simp [executeTool, hpre, hhooks, hscopeRun, addFeedback, hfb]
  · simp

/-- C3 (witness): the theorem applied to the concrete S2 scenario — intent
`INT-001` owns `src/auth/**`, the event touches `src/ui/Button.tsx`. -/
theorem c3_scope_violation_witness :
    executeTool [⟨"INT-001", "auth", some "PENDING", ["src/auth/**"], [], [], none⟩]
      [] [] (fun _ _ => true) true (Except.ok ("", ""))
      (fun _ => Except.ok ⟨true, none⟩)
      ⟨"write_file", "INT-001", some ⟨some "src/ui/Button.tsx", none, none⟩⟩
      ⟨"/w", [], none, []⟩ =
    Except.ok
      { success := false, reason := some "Scope violation", executorCalled := false,
        trace := [],
        feedback := ["Scope violation: Agent attempted to modify src/ui/Button.tsx"] } :=
  (c3_scope_violation
    [⟨"INT-001", "auth", some "PENDING", ["src/auth/**"], [], [], none⟩]
    [] [] (fun _ _ => true) true (Except.ok ("", ""))
    (fun _ => Except.ok ⟨true, none⟩)
    ⟨"write_file", "INT-001", some ⟨some "src/ui/Button.tsx", none, none⟩⟩
    ⟨"/w", [], none, []⟩
    ⟨"INT-001", "auth", IntentStatus.PENDING, ["src/auth/**"], [], [], none⟩
    "src/ui/Button.tsx" rfl (by decide) (by decide) rfl rfl (by decide)
    (by decide)).1

/-- C10: for every ToolEvent whose payload is absent or carries no
`filePath` (including the falsy empty string), `scopeValidator` returns
`false`, so `executeTool` rejects with reason `"Scope violation"` without
reaching the concurrency guard, the approval gate, or the executor (the
result does not depend on any of them) and without appending a trace. -/
theorem c10_missing_filepath
    (doc : List RawIntent) (preHooks : List (ToolEvent → HookCtx → Bool))
    (postHooks : List (ToolEvent → HookCtx → Except String Unit))
    (concurrency : ToolEvent → HookCtx → Bool) (approver : Bool)
    (fmtResult : Except String (String × String))
    (executor : ToolEvent → Except String ToolResult)
    (event : ToolEvent) (ctx0 : HookCtx) (i : Intent)
    (hfind : (loadIntents doc).fst.find? (fun j => j.id == event.intentId) = some i)
    (hC : i.status ≠ IntentStatus.COMPLETED) (hL : i.status ≠ IntentStatus.LOCKED)
    (hhooks : runPreHooks preHooks event (contextLoadedCtx ctx0 i) = true)
    (hfp : event.payload.bind Payload.filePath = none ∨
           event.payload.bind Payload.filePath = some "") :
    scopeValidatorRun event (contextLoadedCtx ctx0 i) = (false, contextLoadedCtx ctx0 i) ∧
    executeTool doc preHooks postHooks concurrency approver fmtResult executor event ctx0 =
      Except.ok { success := false, reason := some "Scope violation",
                  executorCalled := false, trace := [], feedback := ctx0.feedback } := by
  have hpre := preToolUseRun_ok doc event.intentId ctx0 i hfind hC hL
  have hscopeRun : scopeValidatorRun event (contextLoadedCtx ctx0 i) =
      (false, contextLoadedCtx ctx0 i) := by
    rcases hp : event.payload with _ | p
    · simp [scopeValidatorRun, hp]
    · rw [hp] at hfp
      rcases hfp with hfp | hfp
      · have hfp' : p.filePath = none := hfp
        simp [scopeValidatorRun, hp, hfp']
      · have hfp' : p.filePath = some "" := hfp
        simp [scopeValidatorRun, hp, hfp']
  refine ⟨hscopeRun, ?_⟩
  have hfb : (contextLoadedCtx ctx0 i).feedback = ctx0.feedback := rfl
  simp [executeTool, hpre, hhooks, hscopeRun, hfb]

/-- C10 (witness): the theorem applied to a `select_active_intent`-style
event with no payload at all. -/
theorem c10_missing_filepath_witness :
    executeTool [⟨"INT-001", "auth", some "PENDING", ["src/auth/**"], [], [], none⟩]
      [] [] (fun _ _ => true) true (Except.ok ("", ""))
      (fun _ => Except.ok ⟨true, none⟩)
      ⟨"run_command", "INT-001", none⟩ ⟨"/w", [], none, []⟩ =
    Except.ok { success := false, reason := some "Scope violation",
                executorCalled := false, trace := [], feedback := [] } :=
  (c10_missing_filepath
    [⟨"INT-001", "auth", some "PENDING", ["src/auth/**"], [], [], none⟩]
    [] [] (fun _ _ => true) true (Except.ok ("", ""))
    (fun _ => Except.ok ⟨true, none⟩)
    ⟨"run_command", "INT-001", none⟩ ⟨"/w", [], none, []⟩
    ⟨"INT-001", "auth", IntentStatus.PENDING, ["src/auth/**"], [], [], none⟩
    rfl (by decide) (by decide) rfl (Or.inl rfl)).2

/-- C6 (counterexample): when the executor throws, `executeTool` returns
`{success: false, reason: <message>}` and skips the post stages, but — in
contradiction with the claim — appends *no* diagnostic entry to the trace
ledger (the engine's catch block only returns; no `appendRaw` call exists
on that path).  The registered post-hook here would escape as an exception
if it ran; the `Except.ok` result shows it did not. -/
theorem c6_counterexample :
    executeTool
      [⟨"INT-001", "d", some "IN_PROGRESS", ["src/**"], [], [], none⟩]
      [] [fun _ _ => Except.error "POST"] (fun _ _ => true) true (Except.ok ("", ""))
      (fun _ => Except.error "disk full")
      ⟨"write_file", "INT-001", some ⟨some "src/a.ts", none, none⟩⟩
      ⟨"/w", [], none, []⟩ =
    Except.ok { success := false, reason := some "disk full", executorCalled := true,
                trace := [], feedback := [] } := rfl

/-- C6 (amended): for every executor that throws, `executeTool` returns
`{success: false, reason: <the exception's message>}`, runs neither the
post-trace stage nor any registered post-hook (the result does not depend
on `fmtResult` or `postHooks`), and appends *no* record to the trace
ledger — the attempted call leaves no audit-trail entry. -/
theorem c6_executor_error
    (doc : List RawIntent) (preHooks : List (ToolEvent → HookCtx → Bool))
    (postHooks : List (ToolEvent → HookCtx → Except String Unit))
    (concurrency : ToolEvent → HookCtx → Bool) (approver : Bool)
    (fmtResult : Except String (String × String))
    (executor : ToolEvent → Except String ToolResult)
    (event : ToolEvent) (ctx0 ctx1 ctx2 ctx3 : HookCtx) (msg : String)
    (hpre : preToolUseRun doc event.intentId ctx0 = Except.ok ctx1)
    (hhooks : runPreHooks preHooks event ctx1 = true)
    (hscope : scopeValidatorRun event ctx1 = (true, ctx2))
    (hconc : concurrency event ctx2 = true)
    (happr : approvalGuardRun approver event ctx2 = (true, ctx3))
    (hexec : executor event = Except.error msg) :
    executeTool doc preHooks postHooks concurrency approver fmtResult executor event ctx0 =
      Except.ok { success := false, reason := some msg, executorCalled := true,
                  trace := [], feedback := ctx3.feedback } := by
  simp [executeTool, hpre, hhooks, hscope, hconc, happr, hexec]

/-- C6 (witness): the amended theorem applied at a concrete in-scope event
whose executor throws `"disk full"`. -/
theorem c6_executor_error_witness :
    executeTool
      [⟨"INT-001", "d", some "IN_PROGRESS", ["src/**"], [], [], none⟩]
      [] [fun _ _ => Except.error "POST2"] (fun _ _ => true) true (Except.ok ("", ""))
      (fun _ => Except.error "disk full")
      ⟨"write_file", "INT-001", some ⟨some "src/a.ts", none, none⟩⟩
      ⟨"/w", [], none, []⟩ =
    Except.ok { success := false, reason := some "disk full", executorCalled := true,
                trace := [],
                feedback := ([] : List String) } :=
  c6_executor_error
    [⟨"INT-001", "d", some "IN_PROGRESS", ["src/**"], [], [], none⟩]
    [] [fun _ _ => Except.error "POST2"] (fun _ _ => true) true (Except.ok ("", ""))
    (fun _ => Except.error "disk full")
    ⟨"write_file", "INT-001", some ⟨some "src/a.ts", none, none⟩⟩
    ⟨"/w", [], none, []⟩
    ⟨"/w", ["src/**"],
      some ⟨"INT-001", "d", IntentStatus.IN_PROGRESS, ["src/**"], [], [], none⟩, []⟩
    ⟨"/w", ["src/**"],
      some ⟨"INT-001", "d", IntentStatus.IN_PROGRESS, ["src/**"], [], [], none⟩, []⟩
    ⟨"/w", ["src/**"],
      some ⟨"INT-001", "d", IntentStatus.IN_PROGRESS, ["src/**"], [], [], none⟩, []⟩
    "disk full" rfl rfl rfl rfl rfl rfl

/-- C7 (counterexample): a registered post-hook that throws makes
`executeTool` itself reject with that exception — the pipeline result
derived from the executor's successful `ToolResult` is lost and the error
is not recorded as feedback, contradicting the claim. -/
theorem c7_counterexample :
    executeTool [⟨"INT-001", "d", some "IN_PROGRESS", ["src/**"], [], [], none⟩]
      [] [fun _ _ => Except.error "boom"] (fun _ _ => true) true (Except.ok ("", ""))
      (fun _ => Except.ok ⟨true, some "done"⟩)
      ⟨"write_file", "INT-001", some ⟨some "src/a.ts", none, none⟩⟩
      ⟨"/w", [], none, []⟩ = Except.error "boom" := rfl

/-- C7 (amended): the registered post-hooks run in registration order with
no try/catch, so the first post-hook error escapes `executeTool` as an
exception: the `{success, reason}` outcome derived from the executor's
`ToolResult` is replaced by the escaped error, and nothing records it as
feedback. -/
theorem c7_posthook_error
    (doc : List RawIntent) (preHooks : List (ToolEvent → HookCtx → Bool))
    (postHooks : List (ToolEvent → HookCtx → Except String Unit))
    (concurrency : ToolEvent → HookCtx → Bool) (approver : Bool)
    (fmtResult : Except String (String × String))
    (executor : ToolEvent → Except String ToolResult)
    (event : ToolEvent) (ctx0 ctx1 ctx2 ctx3 : HookCtx)
    (toolResult : ToolResult) (e : String)
    (hpre : preToolUseRun doc event.intentId ctx0 = Except.ok ctx1)
    (hhooks : runPreHooks preHooks event ctx1 = true)
    (hscope : scopeValidatorRun event ctx1 = (true, ctx2))
    (hconc : concurrency event ctx2 = true)
    (happr : approvalGuardRun approver event ctx2 = (true, ctx3))
    (hexec : executor event = Except.ok toolResult)
    (hpost : runPostHooks postHooks event (postTraceStage fmtResult event ctx3).fst =
      Except.error e) :
    executeTool doc preHooks postHooks concurrency approver fmtResult executor event ctx0 =
      Except.error e := by
  simp [executeTool, hpre, hhooks, hscope, hconc, happr, hexec, hpost]

/-- C7 (witness): the amended theorem applied at a concrete event whose
single registered post-hook throws `"boom"` after a successful executor. -/
theorem c7_posthook_error_witness :
    executeTool [⟨"INT-001", "d", some "IN_PROGRESS", ["src/**"], [], [], none⟩]
      [] [fun _ _ => Except.error "boom"] (fun _ _ => true) true (Except.ok ("", ""))
      (fun _ => Except.ok ⟨true, some "done"⟩)
      ⟨"write_file", "INT-001", some ⟨some "src/b.ts", none, none⟩⟩
      ⟨"/w", [], none, []⟩ = Except.error "boom" :=
  c7_posthook_error
    [⟨"INT-001", "d", some "IN_PROGRESS", ["src/**"], [], [], none⟩]
    [] [fun _ _ => Except.error "boom"] (fun _ _ => true) true (Except.ok ("", ""))
    (fun _ => Except.ok ⟨true, some "done"⟩)
    ⟨"write_file", "INT-001", some ⟨some "src/b.ts", none, none⟩⟩
    ⟨"/w", [], none, []⟩
    ⟨"/w", ["src/**"],
      some ⟨"INT-001", "d", IntentStatus.IN_PROGRESS, ["src/**"], [], [], none⟩, []⟩
    ⟨"/w", ["src/**"],
      some ⟨"INT-001", "d", IntentStatus.IN_PROGRESS, ["src/**"], [], [], none⟩, []⟩
    ⟨"/w", ["src/**"],
      some ⟨"INT-001", "d", IntentStatus.IN_PROGRESS, ["src/**"], [], [], none⟩, []⟩
    ⟨true, some "done"⟩ "boom" rfl rfl rfl rfl rfl rfl rfl

/- ────────────────────────────────────────────────────────────────────────
   Claim theorems: the trace ledger (C9)
   ──────────────────────────────────────────────────────────────────────── -/

theorem hexDigit_ne_nl (n : Nat) : hexDigit n ≠ '\n' := by
  unfold hexDigit
  rw [List.getD_eq_getElem?_getD]
  rcases h : hexDigitChars[n]? with _ | c
  · decide
  · have hc : c ∈ hexDigitChars := List.getElem?_mem h
    simp only [Option.getD_some]
    intro hEq
    rw [hEq] at hc
    exact absurd hc (by decide)

theorem escapeChar_no_nl (c : Char) : '\n' ∉ escapeChar c := by
  intro hmem
  unfold escapeChar at hmem
  split_ifs at hmem with h1 h2 h3 h4 h5 h6
  · exact absurd hmem (by decide)
  · exact absurd hmem (by decide)
  · exact absurd hmem (by decide)
  · exact absurd hmem (by decide)
  · exact absurd hmem (by decide)
  · simp only [List.mem_cons, List.not_mem_nil, or_false] at hmem
    rcases hmem with h | h | h | h | h | h
    · exact absurd h (by decide)
    · exact absurd h (by decide)
    · exact absurd h (by decide)
    · exact absurd h (by decide)
    · exact hexDigit_ne_nl _ h.symm
    · exact hexDigit_ne_nl _ h.symm
  · simp only [List.mem_cons, List.not_mem_nil, or_false] at hmem
    exact h3 hmem.symm

theorem foldr_escape_no_nl (l : List Char) (base : List Char) (hb : '\n' ∉ base) :
    '\n' ∉ l.foldr (fun c acc => escapeChar c ++ acc) base := by
  induction l with
  | nil => exact hb
  | cons c cs ih =>
    intro h
    rcases List.mem_append.mp h with h | h
    · exact escapeChar_no_nl c h
    · exact ih h

theorem serializeString_no_nl (s : String) : '\n' ∉ serializeString s := by
  unfold serializeString
  intro h
  rcases List.mem_cons.mp h with h | h
  · exact absurd h (by decide)
  · exact foldr_escape_no_nl s.data ['"'] (by decide) h

theorem natCharsFuel_no_nl (fuel : Nat) :
    ∀ (n : Nat) (acc : List Char), '\n' ∉ acc → '\n' ∉ natCharsFuel fuel n acc := by
  induction fuel with
  | zero =>
    intro n acc h
    simpa [natCharsFuel] using h
  | succ f ih =>
    intro n acc h
    unfold natCharsFuel
    by_cases hn : n < 10
    · rw [if_pos hn]
      intro hm
      rcases List.mem_cons.mp hm with hm | hm
      · exact hexDigit_ne_nl n hm.symm
      · exact h hm
    · rw [if_neg hn]
      apply ih
      intro hm
      rcases List.mem_cons.mp hm with hm | hm
      · exact hexDigit_ne_nl _ hm.symm
      · exact h hm

theorem natChars_no_nl (n : Nat) : '\n' ∉ natChars n :=
  natCharsFuel_no_nl (n + 1) n [] (by simp)

mutual

theorem serializeJson_no_nl : ∀ j : Json, '\n' ∉ serializeJson j
  | Json.str s => by
    simpa [serializeJson] using serializeString_no_nl s
  | Json.num n => by
    simpa [serializeJson] using natChars_no_nl n
  | Json.jbool b => by
    cases b <;> simp [serializeJson]
  | Json.null => by
    simp [serializeJson]
  | Json.arr xs => by
    intro h
    simp only [serializeJson, List.mem_cons, List.mem_append] at h
    rcases h with h | h
    · exact absurd h (by decide)
    rcases h with h | h
    · exact serializeArr_no_nl xs h
    · exact absurd h (by decide)
  | Json.obj fs => by
    intro h
    simp only [serializeJson, List.mem_cons, List.mem_append] at h
    rcases h with h | h
    · exact absurd h (by decide)
    rcases h with h | h
    · exact serializeObj_no_nl fs h
    · exact absurd h (by decide)

theorem serializeArr_no_nl : ∀ xs : List Json, '\n' ∉ serializeArr xs
  | [] => by simp [serializeArr]
  | [x] => by
    simpa [serializeArr] using serializeJson_no_nl x
  | x :: y :: xs => by
    intro h
    simp only [serializeArr, List.mem_append, List.mem_cons] at h
    rcases h with h | h | h
    · exact serializeJson_no_nl x h
    · exact absurd h (by decide)
    · exact serializeArr_no_nl (y :: xs) h

theorem serializeObj_no_nl : ∀ fs : List (String × Json), '\n' ∉ serializeObj fs
  | [] => by simp [serializeObj]
  | [(k, v)] => by
    intro h
    simp only [serializeObj, List.mem_append, List.mem_cons] at h
    rcases h with h | h | h
    · exact serializeString_no_nl k h
    · exact absurd h (by decide)
    · exact serializeJson_no_nl v h
  | (k, v) :: p :: xs => by
    intro h
    simp only [serializeObj, List.mem_append, List.mem_cons] at h
    rcases h with (h | h | h) | h | h
    · exact serializeString_no_nl k h
    · exact absurd h (by decide)
    · exact serializeJson_no_nl v h
    · exact absurd h (by decide)
    · exact serializeObj_no_nl (p :: xs) h

end

theorem lookupField_setField_same (fs : List (String × Json)) (k : String) (v : Json) :
    lookupField (setField fs k v) k = some v := by
  induction fs with
  | nil => simp [setField, lookupField]
  | cons p rest ih =>
    obtain ⟨k0, v0⟩ := p
    by_cases h : (k0 == k) = true
    · simp [setField, h, lookupField]
    · have hf : (k0 == k) = false := by simpa using h
      simp only [setField, hf, Bool.false_eq_true, if_false]
      simpa [lookupField, List.find?, hf] using ih

theorem lookupField_setField_other (fs : List (String × Json)) (k k' : String) (v : Json)
    (hk : (k' == k) = false) : lookupField (setField fs k v) k' = lookupField fs k' := by
  have hk2 : (k == k') = false := by
    rw [beq_eq_false_iff_ne] at hk ⊢
    exact fun h => hk h.symm
  induction fs with
  | nil => simp [setField, lookupField, List.find?, hk2]
  | cons p rest ih =>
    obtain ⟨k0, v0⟩ := p
    by_cases h : (k0 == k) = true
    · have hk0 : k0 = k := by simpa using h
      subst hk0
      simp [setField, lookupField, List.find?, hk2]
    · have hf : (k0 == k) = false := by simpa using h
      simp only [setField, hf, Bool.false_eq_true, if_false]
      by_cases h' : (k0 == k') = true
      · simp [lookupField, List.find?, h']
      · have hf' : (k0 == k') = false := by simpa using h'
        simp only [lookupField] at ih
        simpa [lookupField, List.find?, hf'] using ih

/-- C9: every record handed to the generic trace append
(`TraceLogger.log`) becomes a single JSON line terminated by a newline
(the serialized body contains no newline character); the caller's `vcs`
and `timestamp` fields are preserved when present and otherwise filled
from the Revision Oracle and the current instant; and when the
version-control invocation fails, the filled `revision_id` is the sentinel
`"unknown"` (the failure is swallowed, never propagated). -/
theorem c9_trace_log (git : Except String String) (now : String)
    (record : List (String × Json)) :
    (∃ body, logLine git now record = body ++ ['\n'] ∧ '\n' ∉ body) ∧
    (∀ v, lookupField record "vcs" = some v →
        lookupField (logEntryFields git now record) "vcs" = some v) ∧
    (∀ t, lookupField record "timestamp" = some t →
        lookupField (logEntryFields git now record) "timestamp" = some t) ∧
    (lookupField record "vcs" = none →
        lookupField (logEntryFields git now record) "vcs" =
          some (Json.obj [("revision_id", Json.str (getCurrentGitSHA git))])) ∧
    (lookupField record "timestamp" = none →
        lookupField (logEntryFields git now record) "timestamp" = some (Json.str now)) ∧
    (∀ e, git = Except.error e → getCurrentGitSHA git = "unknown") := by
  refine ⟨⟨serializeJson (Json.obj (logEntryFields git now record)), rfl,
            serializeJson_no_nl _⟩, ?_, ?_, ?_, ?_, ?_⟩
  · intro v hv
    simp only [logEntryFields, hv]
    rw [lookupField_setField_other _ _ _ _ (by decide)]
    exact lookupField_setField_same _ _ _
  · intro t ht
    simp only [logEntryFields, ht]
    exact lookupField_setField_same _ _ _
  · intro hv
    simp only [logEntryFields, hv]
    rw [lookupField_setField_other _ _ _ _ (by decide)]
    exact lookupField_setField_same _ _ _
  · intro ht
    simp only [logEntryFields, ht]
    exact lookupField_setField_same _ _ _
  · intro e he
    rw [he]
    rfl

/-- C9 (witness): the theorem applied with a failing revision provider (S7):
the filled `revision_id` is `"unknown"` and the timestamp is filled with
the supplied instant. -/
theorem c9_trace_log_witness :
    lookupField (logEntryFields (Except.error "not a git repo") "2026-02-03T04:05:06Z"
        [("id", Json.str "t1")]) "vcs" =
      some (Json.obj [("revision_id", Json.str "unknown")]) ∧
    lookupField (logEntryFields (Except.error "not a git repo") "2026-02-03T04:05:06Z"
        [("id", Json.str "t1")]) "timestamp" = some (Json.str "2026-02-03T04:05:06Z") := by
  have h := c9_trace_log (Except.error "not a git repo") "2026-02-03T04:05:06Z"
    [("id", Json.str "t1")]
  exact ⟨h.2.2.2.1 rfl, h.2.2.2.2.1 rfl⟩
